import Mathlib

/-!
Verification development for the Rapid editor's entity-graph core.

The files under study are the Rapid map editor's graph/action/history/diff
machinery.  The pure core (Graph, the action library, the edit history and
the difference engine) is specified in the project's design document; the
repository snapshot at hand contains its unit tests and callers
(src/test/unit/actions/add_midpoint.test.js, src/modules/validations/kerb_nodes.js,
src/modules/svg/ai_features.js, src/modules/util/fetch_response.js).
Where the implementation itself is absent, the definitions below are
modelled from the specification, and each such definition says so in its
doc comment.  Definitions that embed code present in the snapshot name the
source file they embed.
-/

namespace Rapid

/-- Tag mapping of an entity: an association list of string keys to string values. -/
abbrev Tags := List (String × String)

/-- A lon/lat location.  The claims under study only compare locations for
equality, so coordinates are carried as integers. -/
abbrev Loc := Int × Int

/-- Modelled from the spec (§3 DATA MODEL): an Entity is a tagged variant over
Node / Way / Relation with common fields id, version v, tags; a Node carries a
loc, a Way an ordered list of node IDs, a Relation an ordered member list. -/
inductive Entity where
  | node (id : String) (v : Nat) (tags : Tags) (loc : Loc)
  | way (id : String) (v : Nat) (tags : Tags) (nodes : List String)
  | relation (id : String) (v : Nat) (tags : Tags) (members : List (String × String))
deriving DecidableEq, Repr

/-- The id of an entity. -/
def Entity.id : Entity → String
  | .node i _ _ _ => i
  | .way i _ _ _ => i
  | .relation i _ _ _ => i

/-- Whether the entity is a Node. -/
def Entity.isNode : Entity → Bool
  | .node _ _ _ _ => true
  | _ => false

/-- The node list of a Way, empty for other entities. -/
def Entity.wayNodes : Entity → List String
  | .way _ _ _ ns => ns
  | _ => []

/-- The loc of a Node, (0,0) for other entities. -/
def Entity.loc : Entity → Loc
  | .node _ _ _ l => l
  | _ => (0, 0)

/-- Lookup of an id in an entity association list, first match wins. -/
def lookupE : List (String × Entity) → String → Option Entity
  | [], _ => none
  | (k, e) :: rest, i => if i = k then some e else lookupE rest i

/-- Modelled from the spec (§3, §4.2): a Graph is an immutable snapshot,
logically a mapping from entity ID to Entity.  The delta-layer chain of the
spec is an efficiency device; this model keeps the logical mapping as an
association list. -/
structure Graph where
  entities : List (String × Entity)
deriving DecidableEq, Repr

/-- Modelled from the spec (§4.2): hasEntity returns the entity or absent,
never fails. -/
def Graph.hasEntity (g : Graph) (i : String) : Option Entity :=
  lookupE g.entities i

/-- Modelled from the spec (§4.2): replace returns a new Graph with the given
entity's value layered in. -/
def Graph.replace (g : Graph) (e : Entity) : Graph :=
  ⟨(e.id, e) :: g.entities.filter (fun p => p.1 ≠ e.id)⟩

/-- Modelled from the spec (§4.2): childNodes resolves a Way's node IDs to
entities.  Missing IDs are skipped here; the spec's entity() would fail fast
instead, and no claim under study depends on that difference. -/
def Graph.childNodes (g : Graph) (w : Entity) : List Entity :=
  w.wayNodes.filterMap (fun i => g.hasEntity i)

/-- Keys are exactly the entity ids: the well-formedness every Graph built by
replace from an empty graph enjoys. -/
def Graph.wf (g : Graph) : Prop :=
  ∀ p ∈ g.entities, Entity.id p.2 = p.1

instance (g : Graph) : Decidable (Graph.wf g) := by
  unfold Graph.wf; infer_instance

/-- Whether a node list contains the edge a-b as consecutive nodes, in either
direction. -/
def containsEdge (a b : String) : List String → Bool
  | n1 :: n2 :: rest =>
    if (n1 = a ∧ n2 = b) ∨ (n1 = b ∧ n2 = a) then true
    else containsEdge a b (n2 :: rest)
  | _ => false

/-- Modelled from the spec (§4.3 AddMidpoint): insert c after the first
occurrence of the edge a-b (taken in either direction) in a node list; a list
without the edge is returned unchanged.  A single insertion is performed per
Way, which is what turns the degenerate back-and-forth [a,b,a] into the simple
loop [a,c,b,a] rather than doubling back twice. -/
def addMidpointNodes (a b c : String) : List String → List String
  | n1 :: n2 :: rest =>
    if (n1 = a ∧ n2 = b) ∨ (n1 = b ∧ n2 = a) then n1 :: c :: n2 :: rest
    else n1 :: addMidpointNodes a b c (n2 :: rest)
  | l => l

/-- Moving a node to a location (Node.move of the source's osm node). -/
def Entity.moveTo : Entity → Loc → Entity
  | .node i v t _, l => .node i v t l
  | e, _ => e

/-- The per-entity transform of actionAddMidpoint: insert cid into a Way's
node list at the edge a-b, leave every other entity unchanged. -/
def midWayTransform (a b cid : String) : Entity → Entity
  | .way i v t ns => .way i v t (addMidpointNodes a b cid ns)
  | e => e

/-- Modelled from the spec (§4.3): actionAddMidpoint places node at loc and
inserts it into every Way that contains the edge a-b as consecutive nodes,
preserving the edge's direction as found in that Way; a Way not containing
the edge is left untouched (src/test/unit/actions/add_midpoint.test.js pins
this behaviour). -/
def actionAddMidpoint (loc : Loc) (edge : String × String) (n : Entity) (g : Graph) : Graph :=
  let g1 := g.replace (n.moveTo loc)
  ⟨g1.entities.map (fun p => (p.1, midWayTransform edge.1 edge.2 n.id p.2))⟩

/-! ### The kerb-nodes fix action (src/modules/validations/kerb_nodes.js) -/

/-- The value a JavaScript action closure can hand back to editor.perform:
a Graph, some other value (here: an array of entity IDs), or undefined. -/
inductive JSResult where
  | jsUndefined
  | ids (l : List String)
  | graphVal (g : Graph)
deriving DecidableEq, Repr

/-- The positions object built by calculateNewNodePositions and passed to
getAddKerbNodesAction (src/modules/validations/kerb_nodes.js:126-147). -/
structure KerbPositions where
  firstNodePosition : Option Loc
  lastNodePosition : Option Loc
deriving DecidableEq, Repr

/-- Embeds getAddKerbNodesAction of src/modules/validations/kerb_nodes.js
(lines 298-328): the returned closure looks the way up with hasEntity and
bails out (returns undefined) when the way is missing, when it has fewer than
two child nodes, or when a position is missing; otherwise it builds two fresh
kerb nodes, threads the graph through two actionAddMidpoint applications, and
returns the ARRAY of the two fresh node IDs.  osmNode() generates fresh IDs at
call time; they are passed in here as fresh1 and fresh2. -/
def getAddKerbNodesAction (wayID : String) (positions : KerbPositions) (tags : Tags)
    (fresh1 fresh2 : String) : Graph → JSResult := fun graph =>
  match graph.hasEntity wayID with
  | none => .jsUndefined
  | some way =>
    let nodes := graph.childNodes way
    if h2 : nodes.length < 2 then .jsUndefined
    else
      match positions.firstNodePosition, positions.lastNodePosition with
      | some p1, some p2 =>
        let firstKerbNode := Entity.node fresh1 0 tags p1
        let lastKerbNode := Entity.node fresh2 0 tags p2
        let graph1 := actionAddMidpoint p1
          (Entity.id (nodes.get ⟨0, by omega⟩), Entity.id (nodes.get ⟨1, by omega⟩))
          firstKerbNode graph
        let _graph2 := actionAddMidpoint p2
          (Entity.id (nodes.get ⟨nodes.length - 2, by omega⟩),
           Entity.id (nodes.get ⟨nodes.length - 1, by omega⟩))
          lastKerbNode graph1
        JSResult.ids [fresh1, fresh2]
      | _, _ => .jsUndefined

/-! ### History (modelled from the spec, §4.4) -/

/-- Modelled from the spec (§4.3): an Action is a pure function Graph to Graph
optionally paired with a disabled predicate returning a reason code or falsy. -/
structure HAction where
  apply : Graph → Graph
  disabled : Graph → Option String

/-- Modelled from the spec (§3): a History stack entry is a graph, an
annotation and a transient flag. -/
structure Edit where
  graph : Graph
  annotation : String
  transient : Bool
deriving DecidableEq, Repr

/-- Modelled from the spec (§4.4): History state is a stack of Edits with an
index pointing at the current Edit. -/
structure History where
  stack : List Edit
  index : Nat
deriving DecidableEq, Repr

/-- The current Edit, when the index is in range. -/
def History.currentEdit (h : History) : Option Edit :=
  h.stack[h.index]?

/-- The Graph returned by graph(): the current Edit's graph. -/
def History.currentGraph (h : History) : Option Graph :=
  (h.stack[h.index]?).map Edit.graph

/-- Modelled from the spec (§4.4, §4.3): perform validates every action of the
batch against the current graph before applying any; if any is disabled the
whole batch is rejected and the state is unchanged.  Otherwise the actions are
applied in order, the stack is truncated to index+1 (discarding the redo
branch), the new Edit is pushed and the index advances. -/
def History.perform (h : History) (actions : List HAction) (ann : String) : History :=
  match h.stack[h.index]? with
  | none => h
  | some cur =>
    if actions.any (fun a => (a.disabled cur.graph).isSome) then h
    else
      { stack := h.stack.take (h.index + 1) ++
          [⟨actions.foldl (fun g a => a.apply g) cur.graph, ann, false⟩],
        index := h.index + 1 }

/-- Modelled from the spec (§4.4): undo decrements the index when it is
positive and emits the undone event carrying the (new) current Edit and the
previous Edit, in that order — the pair the handler onHistoryUndone of
src/modules/svg/ai_features.js receives as (currentStack, previousStack); at
the base it is a no-op emitting nothing. -/
def History.undo (h : History) : History × Option (Edit × Edit) :=
  if 0 < h.index then
    ({ h with index := h.index - 1 },
      match h.stack[h.index - 1]?, h.stack[h.index]? with
      | some cur, some prev => some (cur, prev)
      | _, _ => none)
  else (h, none)

/-- Modelled from the spec (§4.4): redo increments the index when it is not at
the tip; a no-op at the tip. -/
def History.redo (h : History) : History :=
  if h.index < h.stack.length - 1 then { h with index := h.index + 1 } else h

/-! ### Difference (modelled from the spec, §4.5) -/

/-- Modelled from the spec (§3): the Difference value object. -/
structure Difference where
  created : List Entity
  modified : List (Entity × Entity)
  deleted : List Entity
deriving DecidableEq, Repr

/-- The entity IDs considered by the difference computation: every ID present
in either snapshot (a superset of the touched IDs the spec tracks, which is
harmless because untouched IDs classify as unchanged). -/
def diffIDs (A B : Graph) : List String :=
  A.entities.map Prod.fst ++ B.entities.map Prod.fst

/-- Modelled from the spec (§4.5): Difference(A,B) classifies each ID as
created (absent in A, present in B), deleted (present in A, absent in B) or
modified (present in both with different value); classification is per-entity
value equality, not reachability. -/
def difference (A B : Graph) : Difference :=
  let ids := diffIDs A B
  { created := ids.filterMap (fun i =>
      match A.hasEntity i, B.hasEntity i with
      | none, some e => some e
      | _, _ => none),
    modified := ids.filterMap (fun i =>
      match A.hasEntity i, B.hasEntity i with
      | some ea, some eb => if ea = eb then none else some (ea, eb)
      | _, _ => none),
    deleted := ids.filterMap (fun i =>
      match A.hasEntity i, B.hasEntity i with
      | some e, none => some e
      | _, _ => none) }

/-! ### utilFetchResponse (src/modules/util/fetch_response.js) -/

/-- The parts of a fetch Response that utilFetchResponse reads: ok, status,
statusText and the content-type header (absent when headers.get returns null). -/
structure Response where
  ok : Bool
  status : Nat
  statusText : String
  contentType : Option String
deriving DecidableEq, Repr

/-- Embeds the FetchError class of src/modules/util/fetch_response.js
(lines 7-17): status and statusText are copied from the response and the
message is status, a space, and statusText. -/
structure FetchError where
  status : Nat
  statusText : String
  message : String
deriving DecidableEq, Repr

/-- The FetchError constructor applied to a response. -/
def FetchError.ofResponse (r : Response) : FetchError :=
  { status := r.status, statusText := r.statusText,
    message := toString r.status ++ " " ++ r.statusText }

/-- The observable outcome of utilFetchResponse: a thrown FetchError, the
TypeError thrown when the content-type header is null, or one of the normal
return shapes. -/
inductive FetchResult where
  | fetchErr (e : FetchError)
  | typeErr
  | empty
  | jsonBody
  | xmlBody (ct : String)
  | bufferBody
  | textBody
deriving DecidableEq, Repr

/-- The prefix of the content-type before the first semicolon, as computed by
contentType.split of the source. -/
def headContentType (s : String) : String :=
  ⟨s.data.takeWhile (fun c => c ≠ ';')⟩

/-- Embeds utilFetchResponse of src/modules/util/fetch_response.js
(lines 38-70): throw FetchError when the response is not ok, then dispatch on
the content-type. -/
def utilFetchResponse (r : Response) : FetchResult :=
  if r.ok then
    match r.contentType with
    | none => .typeErr
    | some ct0 =>
      let ct := headContentType ct0
      if ct = "application/geo+json" ∨ ct = "application/json" ∨
         ct = "application/vnd.geo+json" ∨ ct = "text/x-json" then
        if r.status = 204 ∨ r.status = 205 then .empty else .jsonBody
      else if ct = "application/xhtml+xml" ∨ ct = "application/xml" ∨
              ct = "image/svg+xml" ∨ ct = "text/html" ∨ ct = "text/xml" then
        .xmlBody ct
      else if ct = "application/octet-stream" ∨ ct = "application/protobuf" ∨
              ct = "application/vnd.google.protobuf" ∨ ct = "application/x-protobuf" then
        .bufferBody
      else .textBody
  else .fetchErr (FetchError.ofResponse r)

/-- Whether a JSResult is a Graph. -/
def JSResult.isGraph : JSResult → Bool
  | .graphVal _ => true
  | _ => false

/-! ### Concrete sample data for witnesses -/

/-- A small graph: nodes a, b and ways w1 (empty) and w2 with nodes a-b,
mirroring the fixture of src/test/unit/actions/add_midpoint.test.js. -/
def gFwd : Graph :=
  ⟨[("a", .node "a" 0 [] (0, 0)), ("b", .node "b" 0 [] (0, 0)),
    ("w1", .way "w1" 0 [] []), ("w2", .way "w2" 0 [] ["a", "b"])]⟩

/-- The reverse-order fixture: way w2 has nodes b-a. -/
def gRev : Graph :=
  ⟨[("a", .node "a" 0 [] (0, 0)), ("b", .node "b" 0 [] (0, 0)),
    ("w1", .way "w1" 0 [] []), ("w2", .way "w2" 0 [] ["b", "a"])]⟩

/-- The double-back fixture: way w has nodes a-b-a. -/
def gLoop : Graph :=
  ⟨[("a", .node "a" 0 [] (0, 0)), ("b", .node "b" 0 [] (0, 0)),
    ("w", .way "w" 0 [] ["a", "b", "a"])]⟩

/-- An edit whose graph is the forward fixture. -/
def sampleEdit : Edit := ⟨gFwd, "base", false⟩

/-- A second, different graph for stacking edits. -/
def gOther : Graph := ⟨[("x", .node "x" 0 [] (5, 5))]⟩

/-- A history of two edits with the index at the tip. -/
def sampleHistory : History := ⟨[sampleEdit, ⟨gOther, "edit one", false⟩], 1⟩

/-- An action whose disabled predicate always reports a reason. -/
def disabledAction : HAction := ⟨fun g => g, fun _ => some "relation"⟩

/-- An always-valid action that replaces node x. -/
def validAction : HAction :=
  ⟨fun g => g.replace (.node "x" 0 [] (7, 7)), fun _ => none⟩

/-- A failed fetch Response. -/
def rSample : Response := ⟨false, 404, "Not Found", some "text/plain"⟩

/-! ## Helper lemmas -/

theorem lookupE_map_transform (f : Entity → Entity) (l : List (String × Entity)) (k : String) :
    lookupE (l.map (fun p => (p.1, f p.2))) k = (lookupE l k).map f := by
  induction l with
  | nil => rfl
  | cons p rest ih =>
    simp only [List.map_cons, lookupE]
    by_cases h : k = p.1 <;> simp [h, ih]

theorem lookupE_filter_ne (l : List (String × Entity)) (x k : String) :
    lookupE (l.filter (fun p => p.1 ≠ x)) k = if k = x then none else lookupE l k := by
  induction l with
  | nil => simp only [List.filter_nil, lookupE]; split <;> rfl
  | cons p rest ih =>
    by_cases hpx : p.1 = x
    · rw [List.filter_cons_of_neg (by simp [hpx]), ih]
      by_cases hkx : k = x
      · simp [hkx]
      · rw [if_neg hkx, if_neg hkx, lookupE, if_neg (by rw [hpx]; exact hkx)]
    · rw [List.filter_cons_of_pos (by simp [hpx]), lookupE, ih]
      by_cases hkp : k = p.1
      · rw [if_pos hkp, if_neg (by rw [hkp]; exact hpx), lookupE, if_pos hkp]
      · rw [if_neg hkp]
        by_cases hkx : k = x
        · simp [hkx]
        · rw [if_neg hkx, if_neg hkx, lookupE, if_neg hkp]

theorem hasEntity_replace (g : Graph) (e : Entity) (k : String) :
    (g.replace e).hasEntity k = if k = e.id then some e else g.hasEntity k := by
  unfold Graph.replace Graph.hasEntity
  rw [lookupE, lookupE_filter_ne]
  by_cases h : k = e.id <;> simp [h]

theorem hasEntity_addMidpoint (loc : Loc) (a b : String) (n : Entity) (g : Graph) (k : String) :
    (actionAddMidpoint loc (a, b) n g).hasEntity k
      = ((g.replace (n.moveTo loc)).hasEntity k).map (midWayTransform a b n.id) := by
  unfold actionAddMidpoint Graph.hasEntity
  exact lookupE_map_transform _ _ _

theorem addMidpointNodes_of_not_contains (a b c : String) (l : List String)
    (h : containsEdge a b l = false) : addMidpointNodes a b c l = l := by
  induction l with
  | nil => rfl
  | cons n1 rest ih =>
    cases rest with
    | nil => rfl
    | cons n2 rest2 =>
      rw [containsEdge] at h
      rw [addMidpointNodes]
      by_cases hc : (n1 = a ∧ n2 = b) ∨ (n1 = b ∧ n2 = a)
      · rw [if_pos hc] at h; exact absurd h (by simp)
      · rw [if_neg hc] at h
        rw [if_neg hc, ih h]

theorem lookupE_id (l : List (String × Entity)) (k : String) (e : Entity)
    (hwf : ∀ p ∈ l, Entity.id p.2 = p.1) (h : lookupE l k = some e) : Entity.id e = k := by
  induction l with
  | nil => cases h
  | cons p rest ih =>
    rw [lookupE] at h
    by_cases hk : k = p.1
    · rw [if_pos hk] at h
      have he : e = p.2 := (Option.some.inj h).symm
      rw [he, hwf p (List.mem_cons_self p rest), hk]
    · rw [if_neg hk] at h
      exact ih (fun q hq => hwf q (List.mem_cons_of_mem p hq)) h

/-! ## Claim theorems -/

/-- C2: for every Graph containing nodes a and b and a Way whose node list is
the edge a-b in forward order, actionAddMidpoint with loc (1,2) and a fresh
node c yields that Way with nodes a, c, b and entity(c) located at (1,2). -/
theorem addMidpoint_forward
    (g : Graph) (wid aid bid cid : String) (wv cv : Nat) (wt ct : Tags) (cl : Loc)
    (ha : ∃ av ats al, g.hasEntity aid = some (.node aid av ats al))
    (hb : ∃ bv bts bl, g.hasEntity bid = some (.node bid bv bts bl))
    (hw : g.hasEntity wid = some (.way wid wv wt [aid, bid]))
    (hfresh : g.hasEntity cid = none) :
    ((actionAddMidpoint (1, 2) (aid, bid) (.node cid cv ct cl) g).hasEntity wid
      = some (.way wid wv wt [aid, cid, bid]))
    ∧ ((actionAddMidpoint (1, 2) (aid, bid) (.node cid cv ct cl) g).hasEntity cid
      = some (.node cid cv ct (1, 2))) := by
  have hcw : wid ≠ cid := by
    intro hEq; rw [hEq, hfresh] at hw; cases hw
  constructor
  · rw [hasEntity_addMidpoint, hasEntity_replace]
    simp only [Entity.moveTo, Entity.id]
    rw [if_neg hcw, hw]
    simp [midWayTransform, addMidpointNodes]
  · rw [hasEntity_addMidpoint, hasEntity_replace]
    simp only [Entity.moveTo, Entity.id]
    simp [midWayTransform]

/-- Witness for C2 on the forward fixture of the unit tests. -/
theorem addMidpoint_forward_witness :
    ((actionAddMidpoint (1, 2) ("a", "b") (.node "c" 0 [] (0, 0)) gFwd).hasEntity "w2"
      = some (.way "w2" 0 [] ["a", "c", "b"]))
    ∧ ((actionAddMidpoint (1, 2) ("a", "b") (.node "c" 0 [] (0, 0)) gFwd).hasEntity "c"
      = some (.node "c" 0 [] (1, 2))) :=
  addMidpoint_forward gFwd "w2" "a" "b" "c" 0 0 [] [] (0, 0)
    ⟨0, [], (0, 0), by decide⟩ ⟨0, [], (0, 0), by decide⟩ (by decide) (by decide)

/-- C3: for every Graph containing a Way whose node list is the edge a-b in
reverse order (nodes b, a), actionAddMidpoint on edge (a,b) with node c yields
that Way with nodes b, c, a: insertion preserves the edge's direction as found
in the Way. -/
theorem addMidpoint_reverse
    (g : Graph) (wid aid bid cid : String) (wv cv : Nat) (wt ct : Tags) (cl loc : Loc)
    (hw : g.hasEntity wid = some (.way wid wv wt [bid, aid]))
    (hfresh : g.hasEntity cid = none) :
    (actionAddMidpoint loc (aid, bid) (.node cid cv ct cl) g).hasEntity wid
      = some (.way wid wv wt [bid, cid, aid]) := by
  have hcw : wid ≠ cid := by
    intro hEq; rw [hEq, hfresh] at hw; cases hw
  rw [hasEntity_addMidpoint, hasEntity_replace]
  simp only [Entity.moveTo, Entity.id]
  rw [if_neg hcw, hw]
  simp [midWayTransform, addMidpointNodes]

/-- Witness for C3 on the reverse fixture of the unit tests. -/
theorem addMidpoint_reverse_witness :
    (actionAddMidpoint (1, 2) ("a", "b") (.node "c" 0 [] (0, 0)) gRev).hasEntity "w2"
      = some (.way "w2" 0 [] ["b", "c", "a"]) :=
  addMidpoint_reverse gRev "w2" "a" "b" "c" 0 0 [] [] (0, 0) (1, 2)
    (by decide) (by decide)

/-- C4: for every Graph containing a Way with the degenerate back-and-forth
node list a, b, a, actionAddMidpoint on edge (a,b) with node c yields that Way
with nodes a, c, b, a: a single insertion forming a simple loop. -/
theorem addMidpoint_doubleback
    (g : Graph) (wid aid bid cid : String) (wv cv : Nat) (wt ct : Tags) (cl loc : Loc)
    (hw : g.hasEntity wid = some (.way wid wv wt [aid, bid, aid]))
    (hfresh : g.hasEntity cid = none) :
    (actionAddMidpoint loc (aid, bid) (.node cid cv ct cl) g).hasEntity wid
      = some (.way wid wv wt [aid, cid, bid, aid]) := by
  have hcw : wid ≠ cid := by
    intro hEq; rw [hEq, hfresh] at hw; cases hw
  rw [hasEntity_addMidpoint, hasEntity_replace]
  simp only [Entity.moveTo, Entity.id]
  rw [if_neg hcw, hw]
  simp [midWayTransform, addMidpointNodes]

/-- Witness for C4 on the double-back fixture of the unit tests. -/
theorem addMidpoint_doubleback_witness :
    (actionAddMidpoint (1, 2) ("a", "b") (.node "c" 0 [] (0, 0)) gLoop).hasEntity "w"
      = some (.way "w" 0 [] ["a", "c", "b", "a"]) :=
  addMidpoint_doubleback gLoop "w" "a" "b" "c" 0 0 [] [] (0, 0) (1, 2)
    (by decide) (by decide)

/-- C5: a Way that does not contain the edge a-b as consecutive nodes in
either direction is left with an identical node list (indeed an identical
value) by actionAddMidpoint. -/
theorem addMidpoint_unaffected
    (g : Graph) (wid aid bid : String) (wv : Nat) (wt : Tags) (ns : List String)
    (loc : Loc) (n : Entity)
    (hw : g.hasEntity wid = some (.way wid wv wt ns))
    (hne : containsEdge aid bid ns = false)
    (hfresh : wid ≠ Entity.id n) :
    (actionAddMidpoint loc (aid, bid) n g).hasEntity wid
      = some (.way wid wv wt ns) := by
  have hid : Entity.id (n.moveTo loc) = Entity.id n := by
    cases n <;> rfl
  rw [hasEntity_addMidpoint, hasEntity_replace]
  rw [if_neg (by rw [hid]; exact hfresh), hw]
  simp [midWayTransform, addMidpointNodes_of_not_contains _ _ _ _ hne]

/-- Witness for C5: the empty way w1 of the forward fixture is untouched. -/
theorem addMidpoint_unaffected_witness :
    (actionAddMidpoint (1, 2) ("a", "b") (.node "c" 0 [] (0, 0)) gFwd).hasEntity "w1"
      = some (.way "w1" 0 [] []) :=
  addMidpoint_unaffected gFwd "w1" "a" "b" 0 [] [] (1, 2) (.node "c" 0 [] (0, 0))
    (by decide) (by decide) (by decide)

/-- C1: contrary to the Action contract (an Action is Graph to Graph), the
closure built by getAddKerbNodesAction and handed to editor.perform never
returns a Graph: it returns the array of the two fresh kerb-node IDs, or
undefined on its guard paths. -/
theorem getAddKerbNodesAction_not_graph
    (wayID : String) (positions : KerbPositions) (tags : Tags)
    (fresh1 fresh2 : String) (g : Graph) :
    (getAddKerbNodesAction wayID positions tags fresh1 fresh2 g).isGraph = false := by
  unfold getAddKerbNodesAction
  cases g.hasEntity wayID with
  | none => rfl
  | some way =>
    dsimp only
    split
    · rfl
    · split
      · rfl
      · rfl

/-- Evaluation of the kerb-nodes action at a concrete graph holding the way:
it produces the ID array, not a Graph. -/
theorem getAddKerbNodesAction_ids_at_sample :
    getAddKerbNodesAction "w2" ⟨some (10, 10), some (20, 20)⟩ [] "k1" "k2" gFwd
      = JSResult.ids ["k1", "k2"] := by decide

/-- C6: if any action of a batch is disabled on the current graph, perform
rejects the whole batch and graph() afterwards equals graph() before. -/
theorem perform_all_or_nothing
    (h : History) (actions : List HAction) (ann : String) (cur : Edit)
    (hcur : h.stack[h.index]? = some cur)
    (hdis : actions.any (fun a => (a.disabled cur.graph).isSome) = true) :
    (h.perform actions ann).currentGraph = h.currentGraph := by
  unfold History.perform
  rw [hcur]
  simp [hdis]

/-- Witness for C6: a batch holding a disabled action leaves the sample
history's graph unchanged. -/
theorem perform_all_or_nothing_witness :
    (sampleHistory.perform [disabledAction] "x").currentGraph
      = sampleHistory.currentGraph :=
  perform_all_or_nothing sampleHistory [disabledAction] "x" ⟨gOther, "edit one", false⟩
    (by decide) (by decide)

theorem getElem?_append_of_lt {α : Type} (l1 l2 : List α) (n : Nat) (h : n < l1.length) :
    (l1 ++ l2)[n]? = l1[n]? := by
  induction l1 generalizing n with
  | nil => simp at h
  | cons a t ih =>
    cases n with
    | zero => simp
    | succ m =>
      simp only [List.cons_append, List.getElem?_cons_succ]
      exact ih m (by simpa using h)

theorem getElem?_take_of_lt {α : Type} (l : List α) (n m : Nat) (h : m < n) :
    (l.take n)[m]? = l[m]? := by
  induction l generalizing n m with
  | nil => simp
  | cons a t ih =>
    cases n with
    | zero => exact absurd h (Nat.not_lt_zero m)
    | succ k =>
      cases m with
      | zero => simp
      | succ j =>
        simp only [List.take_succ_cons, List.getElem?_cons_succ]
        exact ih k j (by omega)

theorem getElem?_append_singleton {α : Type} (l : List α) (e : α) (n : Nat)
    (h : n = l.length) : (l ++ [e])[n]? = some e := by
  subst h
  induction l with
  | nil => rfl
  | cons a t ih => simp

/-- C7: performing a batch of valid actions and undoing yields the pre-perform
current Graph, and redoing after that yields the post-perform Graph. -/
theorem perform_undo_redo
    (h : History) (actions : List HAction) (ann : String) (cur : Edit)
    (hwf : h.index < h.stack.length)
    (hcur : h.stack[h.index]? = some cur)
    (hvalid : actions.any (fun a => (a.disabled cur.graph).isSome) = false) :
    ((h.perform actions ann).undo.fst.currentGraph = h.currentGraph)
    ∧ ((h.perform actions ann).undo.fst.redo.currentGraph
        = (h.perform actions ann).currentGraph) := by
  have hlen : (h.stack.take (h.index + 1)).length = h.index + 1 := by
    rw [List.length_take]; omega
  set e2 : Edit := ⟨actions.foldl (fun g a => a.apply g) cur.graph, ann, false⟩ with he2
  set st : List Edit := h.stack.take (h.index + 1) ++ [e2] with hst
  have hperf : h.perform actions ann = ⟨st, h.index + 1⟩ := by
    unfold History.perform
    rw [hcur]
    simp [hvalid, hst, he2]
  have hundo : (History.undo ⟨st, h.index + 1⟩).fst = (⟨st, h.index⟩ : History) := by
    unfold History.undo
    rw [if_pos (Nat.succ_pos h.index)]
    simp
  have hredo : History.redo ⟨st, h.index⟩ = (⟨st, h.index + 1⟩ : History) := by
    unfold History.redo
    rw [if_pos (by simp only [hst, List.length_append, hlen]; simp)]
  have hcur1 : History.currentGraph ⟨st, h.index⟩ = h.currentGraph := by
    unfold History.currentGraph
    rw [hst, getElem?_append_of_lt _ _ _ (by simp only [hlen]; omega),
      getElem?_take_of_lt _ _ _ (Nat.lt_succ_self h.index)]
  constructor
  · rw [hperf, hundo, hcur1]
  · rw [hperf, hundo, hredo]

/-- Witness for C7: performing a valid action on the sample history, undoing
restores the tip graph, and redoing restores the post-perform graph. -/
theorem perform_undo_redo_witness :
    ((sampleHistory.perform [validAction] "x").undo.fst.currentGraph
      = sampleHistory.currentGraph)
    ∧ ((sampleHistory.perform [validAction] "x").undo.fst.redo.currentGraph
        = (sampleHistory.perform [validAction] "x").currentGraph) :=
  perform_undo_redo sampleHistory [validAction] "x" ⟨gOther, "edit one", false⟩
    (by decide) (by decide) (by decide)

/-- C8: undo with positive index decrements the index by one and emits the
undone payload carrying the (new) current Edit and the previous Edit in that
order; undo at index zero is a no-op emitting nothing. -/
theorem undo_spec (h : History) :
    (0 < h.index →
      h.undo.fst = ⟨h.stack, h.index - 1⟩ ∧
      (∀ cur prev, h.stack[h.index - 1]? = some cur →
        h.stack[h.index]? = some prev → h.undo.snd = some (cur, prev)))
    ∧ (h.index = 0 → h.undo = (h, none)) := by
  constructor
  · intro hpos
    unfold History.undo
    rw [if_pos hpos]
    refine ⟨rfl, ?_⟩
    intro cur prev hc hp
    simp [hc, hp]
  · intro h0
    unfold History.undo
    rw [if_neg (by omega)]

/-- Witness for C8: undoing the two-edit sample history moves the index from
one to zero and reports the base edit as current and the undone edit as
previous. -/
theorem undo_spec_witness :
    sampleHistory.undo.fst = ⟨sampleHistory.stack, 0⟩ ∧
    sampleHistory.undo.snd = some (sampleEdit, ⟨gOther, "edit one", false⟩) := by
  have hsp := (undo_spec sampleHistory).1 (by decide)
  exact ⟨hsp.1, hsp.2 sampleEdit ⟨gOther, "edit one", false⟩ (by decide) (by decide)⟩

/-- C9: an entity present in both snapshots with an unchanged value appears in
none of the created, modified or deleted sets of the difference, whatever else
(for example a Way referencing it) changed between the snapshots. -/
theorem difference_ignores_unchanged
    (A B : Graph) (nid : String) (e : Entity)
    (hwfA : A.wf) (hwfB : B.wf) (hnode : e.isNode = true)
    (hA : A.hasEntity nid = some e) (hB : B.hasEntity nid = some e) :
    e ∉ (difference A B).created ∧ e ∉ (difference A B).deleted ∧
    ∀ p ∈ (difference A B).modified, p.1 ≠ e ∧ p.2 ≠ e := by
  have heid : Entity.id e = nid := lookupE_id _ _ _ hwfA hA
  refine ⟨?_, ?_, ?_⟩
  · intro hmem
    simp only [difference, List.mem_filterMap] at hmem
    obtain ⟨i, hi, hf⟩ := hmem
    rcases hAi : A.hasEntity i with _ | ea <;> rcases hBi : B.hasEntity i with _ | eb <;>
      rw [hAi, hBi] at hf <;> simp only [] at hf
    · cases hf
    · have hbe : eb = e := Option.some.inj hf
      have hid2 : Entity.id e = i := by rw [← hbe]; exact lookupE_id _ _ _ hwfB hBi
      have hin : i = nid := by rw [← hid2, heid]
      rw [hin, hA] at hAi
      cases hAi
    · cases hf
    · cases hf
  · intro hmem
    simp only [difference, List.mem_filterMap] at hmem
    obtain ⟨i, hi, hf⟩ := hmem
    rcases hAi : A.hasEntity i with _ | ea <;> rcases hBi : B.hasEntity i with _ | eb <;>
      rw [hAi, hBi] at hf <;> simp only [] at hf
    · cases hf
    · cases hf
    · have hae : ea = e := Option.some.inj hf
      have hid2 : Entity.id e = i := by rw [← hae]; exact lookupE_id _ _ _ hwfA hAi
      have hin : i = nid := by rw [← hid2, heid]
      rw [hin, hB] at hBi
      cases hBi
    · cases hf
  · intro p hmem
    simp only [difference, List.mem_filterMap] at hmem
    obtain ⟨i, hi, hf⟩ := hmem
    rcases hAi : A.hasEntity i with _ | ea <;> rcases hBi : B.hasEntity i with _ | eb <;>
      rw [hAi, hBi] at hf <;> simp only [] at hf
    · cases hf
    · cases hf
    · cases hf
    · by_cases heq : ea = eb
      · rw [if_pos heq] at hf; cases hf
      · rw [if_neg heq] at hf
        obtain rfl : p = (ea, eb) := (Option.some.inj hf).symm
        constructor
        · intro hpe
          have hea : ea = e := hpe
          have hid2 : Entity.id e = i := by rw [← hea]; exact lookupE_id _ _ _ hwfA hAi
          have hin : i = nid := by rw [← hid2, heid]
          rw [hin, hB] at hBi
          have : eb = e := (Option.some.inj hBi).symm
          exact heq (by rw [hea, this])
        · intro hpe
          have heb : eb = e := hpe
          have hid2 : Entity.id e = i := by rw [← heb]; exact lookupE_id _ _ _ hwfB hBi
          have hin : i = nid := by rw [← hid2, heid]
          rw [hin, hA] at hAi
          have : ea = e := (Option.some.inj hAi).symm
          exact heq (by rw [heb, this])

/-- Witness for C9: node a is unchanged between two concrete graphs even
though the way referencing it is modified; it appears in no difference set. -/
theorem difference_ignores_unchanged_witness :
    (.node "a" 0 [] (0, 0)) ∉ (difference gFwd gRev).created ∧
    (.node "a" 0 [] (0, 0)) ∉ (difference gFwd gRev).deleted ∧
    ∀ p ∈ (difference gFwd gRev).modified,
      p.1 ≠ (.node "a" 0 [] (0, 0)) ∧ p.2 ≠ (.node "a" 0 [] (0, 0)) :=
  difference_ignores_unchanged gFwd gRev "a" (.node "a" 0 [] (0, 0))
    (by decide) (by decide) (by decide) (by decide) (by decide)

theorem utilFetchResponse_ok_not_fetchErr (r : Response) (hR : r.ok = true) (e : FetchError) :
    utilFetchResponse r ≠ FetchResult.fetchErr e := by
  unfold utilFetchResponse
  rw [hR]
  simp only [eq_self_iff_true, if_true]
  split
  · simp
  · split
    · split <;> simp
    · split
      · simp
      · split <;> simp

/-- C10: utilFetchResponse throws a FetchError exactly when response.ok is
false, and the thrown FetchError copies the response's status and statusText
and has message equal to the status, a space, and the statusText. -/
theorem utilFetchResponse_fetchError (r : Response) :
    ((∃ e, utilFetchResponse r = .fetchErr e) ↔ r.ok = false)
    ∧ (∀ e, utilFetchResponse r = .fetchErr e →
        e.status = r.status ∧ e.statusText = r.statusText ∧
        e.message = toString r.status ++ " " ++ r.statusText) := by
  have herr : r.ok = false → utilFetchResponse r = .fetchErr (FetchError.ofResponse r) := by
    intro hfalse
    unfold utilFetchResponse
    rw [hfalse]
    simp
  constructor
  · constructor
    · rintro ⟨e, he⟩
      cases hcase : r.ok
      · rfl
      · exact absurd he (utilFetchResponse_ok_not_fetchErr r hcase e)
    · intro hfalse
      exact ⟨FetchError.ofResponse r, herr hfalse⟩
  · intro e he
    have hfalse : r.ok = false := by
      cases hcase : r.ok
      · rfl
      · exact absurd he (utilFetchResponse_ok_not_fetchErr r hcase e)
    rw [herr hfalse] at he
    have hee : FetchError.ofResponse r = e := FetchResult.fetchErr.inj he
    rw [← hee]
    exact ⟨rfl, rfl, rfl⟩

/-- Witness for C10 at a concrete 404 response. -/
theorem utilFetchResponse_fetchError_witness :
    (∃ e, utilFetchResponse rSample = .fetchErr e) ∧
    (∀ e, utilFetchResponse rSample = .fetchErr e →
      e.status = rSample.status ∧ e.statusText = rSample.statusText ∧
      e.message = toString rSample.status ++ " " ++ rSample.statusText) := by
  have h := utilFetchResponse_fetchError rSample
  exact ⟨h.1.mpr rfl, h.2⟩

end Rapid
